import Mathlib

/-
Shallow embedding of the icon-library export/audit engine:

* the export hub (size estimators, aggregator, profile presets, state
  mutations, batch progress simulation) and
* the collection consistency auditor (duplicate hashing, stroke-weight
  mode, off-grid detection).

Modelling conventions, used throughout:

* JavaScript numbers are modelled as exact arithmetic: integers as Nat or
  Int, fractional constants as Rat, and the one transcendental power
  (size/24) ** 1.6 through Real.rpow.  Math.round is round-half-up,
  embedded as fun x => Int.floor (x + 1/2), which matches Math.round on
  all real inputs (halves round toward positive infinity).
* A JavaScript Map is an insertion-ordered association list; Map.set on a
  present key updates in place, on an absent key appends.  A JavaScript
  Set is a first-occurrence-deduplicated list.
* React state updates are pure transitions on an explicit state record.
* The setInterval progress timer is modelled by an explicit tick function;
  the pseudo-random per-item step 8 + Math.round(Math.random() * 12) is an
  arbitrary input constrained to the interval [8, 20].
-/

/-- Math.round on exact rational arithmetic: round half toward plus infinity. -/
def jsRoundQ (x : ℚ) : ℤ := ⌊x + 1/2⌋

/-- Math.round on real arithmetic (needed where the source raises to the
fractional power 1.6). -/
noncomputable def jsRoundR (x : ℝ) : ℤ := ⌊x + 1/2⌋

/-- Stable ascending insertion used to model Array.prototype.sort((a, b) => a - b). -/
def insertSorted (n : ℕ) : List ℕ → List ℕ
  | [] => [n]
  | m :: rest => if n ≤ m then n :: m :: rest else m :: insertSorted n rest

/-- Numeric ascending sort, modelling Array.prototype.sort((a, b) => a - b). -/
def sortAsc (l : List ℕ) : List ℕ := l.foldr insertSorted []

/-- First-occurrence deduplication: the element order of a JavaScript Set
built by inserting the list elements left to right. -/
def dedupFirst {α : Type} [DecidableEq α] (l : List α) : List α :=
  l.foldl (fun acc x => if x ∈ acc then acc else acc ++ [x]) []

/-- Insertion-ordered association-list update, modelling Map.set combined
with Map.get: a present key has its value modified in place, an absent key
is appended at the end with the seed value. -/
def upsert {κ β : Type} [DecidableEq κ] (k : κ) (f : β → β) (z : β) :
    List (κ × β) → List (κ × β)
  | [] => [(k, z)]
  | (k', v) :: rest =>
      if k' = k then (k', f v) :: rest else (k', v) :: upsert k f z rest

/-- Fold a list into an insertion-ordered grouped association list, the
common shape of the two Map-building loops in the source. -/
def groupFold {α κ β : Type} [DecidableEq κ]
    (key : α → κ) (add : β → α → β) (emp : β) (xs : List α) : List (κ × β) :=
  xs.foldl (fun m x => upsert (key x) (fun v => add v x) (add emp x) m) []

/-! ## Export hub: data model (source part_004) -/

/-- Item handed to the export hub: ExportItem of the source (tags omitted
as they never influence the engine). -/
structure ExpItem where
  id : String
  name : String
  bytes : ℕ
deriving DecidableEq

/-- SVG optimization level. -/
inductive SvgOptimize
  | none
  | standard
  | aggressive
deriving DecidableEq

/-- PNG background choice. -/
inductive PngBackground
  | transparent
  | light
  | dark
deriving DecidableEq

/-- Sprite sheet layout choice. -/
inductive SpriteLayout
  | horizontal
  | vertical
  | packed
deriving DecidableEq

/-- Framework component target. -/
inductive Framework
  | react
  | vue
  | svelte
deriving DecidableEq

/-- Per-format parameter records of ExportFormats in the source. -/
structure SvgFormat where
  enabled : Bool
  optimize : SvgOptimize
  stripFill : Bool
deriving DecidableEq

structure PngFormat where
  enabled : Bool
  sizes : List ℕ
  background : PngBackground
deriving DecidableEq

structure IcoFormat where
  enabled : Bool
deriving DecidableEq

structure SpriteFormat where
  enabled : Bool
  layout : SpriteLayout
deriving DecidableEq

structure FontFormat where
  enabled : Bool
  includeLigatures : Bool
deriving DecidableEq

structure ComponentsFormat where
  enabled : Bool
  targets : List Framework
deriving DecidableEq

/-- The six-format configuration record ExportFormats. -/
structure Formats where
  svg : SvgFormat
  png : PngFormat
  ico : IcoFormat
  sprite : SpriteFormat
  font : FontFormat
  components : ComponentsFormat
deriving DecidableEq

/-- Export profile key. -/
inductive ProfileKey
  | web
  | mobile
  | handoff
  | custom
deriving DecidableEq

/-! ## Size estimators (source part_004 lines 110-131) -/

/-- estimatePerSvg: factor 0.78 aggressive, 0.88 standard, 1 otherwise;
floor of 350 bytes. -/
def estimatePerSvg (bytes : ℕ) (optimize : SvgOptimize) : ℤ :=
  let factor : ℚ :=
    match optimize with
    | .aggressive => 78/100
    | .standard => 88/100
    | .none => 1
  max 350 (jsRoundQ ((bytes : ℚ) * factor))

/-- estimatePerPng: crude heuristic scaling against a 24 px baseline with
exponent 1.6 and headroom factor 1.15; floor of 900 bytes. -/
noncomputable def estimatePerPng (bytes : ℕ) (size : ℕ) : ℤ :=
  max 900 (jsRoundR ((bytes : ℝ) * (((size : ℝ) / 24) ^ (1.6 : ℝ)) * 1.15))

/-- estimateIco: 0.65 scaling plus 1024 bytes of header, floor of 3000 bytes. -/
def estimateIco (bytes : ℕ) : ℤ :=
  max 3000 (jsRoundQ ((bytes : ℚ) * (65/100)) + 1024)

/-- estimateComponent: a very small wrapper per icon, floor of 220 bytes. -/
def estimateComponent (bytes : ℕ) : ℤ :=
  max 220 (jsRoundQ ((bytes : ℚ) * (5/100)))

/-! ## Naming, presets and hub state (source part_004 lines 133-225) -/

/-- NamingConfig: file naming pattern and lowercase flag. -/
structure Naming where
  pattern : String
  lowercase : Bool
deriving DecidableEq

/-- Partial naming payload of a preset (Partial of the naming record). -/
structure NamingPatch where
  pattern : Option String
  lowercase : Option Bool
deriving DecidableEq

/-- Partial format payload of a profile preset: Partial of ExportFormats
together with an optional naming patch. -/
structure Preset where
  svg : Option SvgFormat
  png : Option PngFormat
  ico : Option IcoFormat
  sprite : Option SpriteFormat
  font : Option FontFormat
  components : Option ComponentsFormat
  naming : Option NamingPatch

/-- The three non-custom profile keys. -/
inductive PresetKey
  | web
  | mobile
  | handoff
deriving DecidableEq

/-- Embeds a preset key into the profile keys. -/
def PresetKey.toProfile : PresetKey → ProfileKey
  | .web => .web
  | .mobile => .mobile
  | .handoff => .handoff

/-- The profilePresets table of the source. -/
def profilePresets : PresetKey → Preset
  | .web =>
    { svg := some ⟨true, .standard, false⟩
      png := some ⟨false, [16, 24, 32, 48, 64], .transparent⟩
      ico := some ⟨false⟩
      sprite := some ⟨true, .packed⟩
      font := some ⟨false, false⟩
      components := some ⟨true, [.react]⟩
      naming := some ⟨some "{name}", some true⟩ }
  | .mobile =>
    { svg := some ⟨false, .standard, false⟩
      png := some ⟨true, [24, 48, 96, 128], .transparent⟩
      ico := some ⟨false⟩
      sprite := some ⟨false, .packed⟩
      font := some ⟨false, false⟩
      components := some ⟨true, [.react]⟩
      naming := some ⟨some "{name}@{size}", some true⟩ }
  | .handoff =>
    { svg := some ⟨true, .none, false⟩
      png := some ⟨true, [24, 48, 72], .light⟩
      ico := some ⟨false⟩
      sprite := some ⟨false, .packed⟩
      font := some ⟨false, false⟩
      components := some ⟨false, []⟩
      naming := some ⟨some "{name}-{size}-{theme}", some false⟩ }

/-- Color token mapping row. -/
structure ColorRow where
  token : String
  hex : String
deriving DecidableEq

/-- Delivery options record. -/
structure Delivery where
  apiEnabled : Bool
  apiBaseUrl : String
  apiToken : String
  cdnCacheSeconds : ℕ
deriving DecidableEq

/-- Webhook event toggles. -/
structure WebhookEvents where
  completed : Bool
  failed : Bool
deriving DecidableEq

/-- Webhook settings record. -/
structure WebhookConfig where
  enabled : Bool
  url : String
  secret : String
  events : WebhookEvents
deriving DecidableEq

/-- ExportHubState of the source; the selection Record is a map from item
id to inclusion flag. -/
structure HubState where
  profile : ProfileKey
  formats : Formats
  naming : Naming
  colorMappingEnabled : Bool
  colorMap : List ColorRow
  delivery : Delivery
  webhook : WebhookConfig
  selection : String → Bool

/-- applyPreset with an explicit preset payload: profile is set to the key
and each format present in the payload overwrites the previous one, fields
absent from the payload keep their prior values (field-level merge). -/
def applyPresetWith (k : PresetKey) (p : Preset) (s : HubState) : HubState :=
  { s with
    profile := k.toProfile
    formats :=
      { svg := p.svg.getD s.formats.svg
        png := p.png.getD s.formats.png
        ico := p.ico.getD s.formats.ico
        sprite := p.sprite.getD s.formats.sprite
        font := p.font.getD s.formats.font
        components := p.components.getD s.formats.components }
    naming :=
      match p.naming with
      | some np =>
        { pattern := np.pattern.getD s.naming.pattern
          lowercase := np.lowercase.getD s.naming.lowercase }
      | none => s.naming }

/-- applyPreset of the source: look the key up in the preset table and merge. -/
def applyPreset (k : PresetKey) (s : HubState) : HubState :=
  applyPresetWith k (profilePresets k) s

/-- toggleSize of the source: toggle a pixel size through a Set and store
the numerically sorted result; profile is demoted to custom. -/
def togglePngSizes (sizes : List ℕ) (sz : ℕ) : List ℕ :=
  let set := dedupFirst sizes
  sortAsc (if sz ∈ set then set.filter (fun s => s ≠ sz) else set ++ [sz])

/-- Toggling a framework target through a Set, keeping insertion order. -/
def toggleTarget (targets : List Framework) (t : Framework) : List Framework :=
  let set := dedupFirst targets
  if t ∈ set then set.filter (fun x => x ≠ t) else set ++ [t]

/-- The direct format and naming mutations of the export hub UI, one
constructor per setState handler in the source that edits a format or
naming field. -/
inductive MutOp
  | setSvgEnabled (b : Bool)
  | setSvgOptimize (o : SvgOptimize)
  | setSvgStripFill (b : Bool)
  | setPngEnabled (b : Bool)
  | setPngBackground (bg : PngBackground)
  | togglePngSize (sz : ℕ)
  | setIcoEnabled (b : Bool)
  | setSpriteEnabled (b : Bool)
  | setSpriteLayout (l : SpriteLayout)
  | setFontEnabled (b : Bool)
  | setFontLigatures (b : Bool)
  | setComponentsEnabled (b : Bool)
  | toggleComponentTarget (t : Framework)
  | setNamingPattern (p : String)
  | setNamingLowercase (b : Bool)

/-- Applies a direct format or naming mutation; every handler in the
source spreads the previous state, replaces the edited field and sets
profile to custom unconditionally. -/
def applyMut (op : MutOp) (s : HubState) : HubState :=
  match op with
  | .setSvgEnabled b =>
    { s with formats := { s.formats with svg := { s.formats.svg with enabled := b } }
             profile := .custom }
  | .setSvgOptimize o =>
    { s with formats := { s.formats with svg := { s.formats.svg with optimize := o } }
             profile := .custom }
  | .setSvgStripFill b =>
    { s with formats := { s.formats with svg := { s.formats.svg with stripFill := b } }
             profile := .custom }
  | .setPngEnabled b =>
    { s with formats := { s.formats with png := { s.formats.png with enabled := b } }
             profile := .custom }
  | .setPngBackground bg =>
    { s with formats := { s.formats with png := { s.formats.png with background := bg } }
             profile := .custom }
  | .togglePngSize sz =>
    { s with formats := { s.formats with
               png := { s.formats.png with sizes := togglePngSizes s.formats.png.sizes sz } }
             profile := .custom }
  | .setIcoEnabled b =>
    { s with formats := { s.formats with ico := ⟨b⟩ }
             profile := .custom }
  | .setSpriteEnabled b =>
    { s with formats := { s.formats with sprite := { s.formats.sprite with enabled := b } }
             profile := .custom }
  | .setSpriteLayout l =>
    { s with formats := { s.formats with sprite := { s.formats.sprite with layout := l } }
             profile := .custom }
  | .setFontEnabled b =>
    { s with formats := { s.formats with font := { s.formats.font with enabled := b } }
             profile := .custom }
  | .setFontLigatures b =>
    { s with formats := { s.formats with font := { s.formats.font with includeLigatures := b } }
             profile := .custom }
  | .setComponentsEnabled b =>
    { s with formats := { s.formats with
               components := { s.formats.components with enabled := b } }
             profile := .custom }
  | .toggleComponentTarget t =>
    { s with formats := { s.formats with
               components := { s.formats.components with
                 targets := toggleTarget s.formats.components.targets t } }
             profile := .custom }
  | .setNamingPattern p =>
    { s with naming := { s.naming with pattern := p }
             profile := .custom }
  | .setNamingLowercase b =>
    { s with naming := { s.naming with lowercase := b }
             profile := .custom }

/-- The batch-tab include switch: toggling whether an item is in the
selection also demotes the profile to custom (source line 911). -/
def toggleInclude (id : String) (v : Bool) (s : HubState) : HubState :=
  { s with selection := fun i => if i = id then v else s.selection i
           profile := .custom }

/-! ## Aggregator and warning (source part_004 lines 229-277) -/

/-- Selection-wide SVG bytes of the estimates memo. -/
noncomputable def svgBytesOf (selectedItems : List ExpItem) (f : Formats) : ℤ :=
  (selectedItems.map (fun i => estimatePerSvg i.bytes f.svg.optimize)).sum

/-- Selection-wide PNG bytes across all requested sizes. -/
noncomputable def pngBytesOf (selectedItems : List ExpItem) (f : Formats) : ℤ :=
  (selectedItems.map (fun i => (f.png.sizes.map (fun s => estimatePerPng i.bytes s)).sum)).sum

/-- Selection-wide ICO bytes. -/
def icoBytesOf (selectedItems : List ExpItem) : ℤ :=
  (selectedItems.map (fun i => estimateIco i.bytes)).sum

/-- Sprite sheet bytes: a tenth of each standard SVG estimate plus a 5000
byte overhead, rounded. -/
def spriteBytesOf (selectedItems : List ExpItem) : ℤ :=
  jsRoundQ ((selectedItems.map
    (fun i => (estimatePerSvg i.bytes .standard : ℚ) * (1/10))).sum + 5000)

/-- Icon font bytes: a 30000 byte base plus 600 bytes per icon. -/
def fontBytesOf (selectedItems : List ExpItem) : ℤ :=
  30000 + (selectedItems.length : ℤ) * 600

/-- Component bytes: the framework count times the per-icon wrapper estimates. -/
def componentsBytesOf (selectedItems : List ExpItem) (f : Formats) : ℤ :=
  (f.components.targets.length : ℤ) *
    (selectedItems.map (fun i => estimateComponent i.bytes)).sum

/-- The estimates memo: per-format labelled byte counts in the insertion
order of the source (svg, png, ico, sprite, font, components), each format
contributing only when enabled, together with the running total. -/
noncomputable def estimates (selectedItems : List ExpItem) (f : Formats) :
    List (String × ℤ) × ℤ :=
  let perFormat :=
    (if f.svg.enabled then [("SVG", svgBytesOf selectedItems f)] else []) ++
    (if f.png.enabled then
      [("PNG ×" ++ toString f.png.sizes.length, pngBytesOf selectedItems f)] else []) ++
    (if f.ico.enabled then [("ICO", icoBytesOf selectedItems)] else []) ++
    (if f.sprite.enabled then [("Sprite", spriteBytesOf selectedItems)] else []) ++
    (if f.font.enabled then [("Icon Font", fontBytesOf selectedItems)] else []) ++
    (if f.components.enabled then
      [("Components ×" ++ toString f.components.targets.length,
        componentsBytesOf selectedItems f)] else [])
  let total :=
    (if f.svg.enabled then svgBytesOf selectedItems f else 0) +
    (if f.png.enabled then pngBytesOf selectedItems f else 0) +
    (if f.ico.enabled then icoBytesOf selectedItems else 0) +
    (if f.sprite.enabled then spriteBytesOf selectedItems else 0) +
    (if f.font.enabled then fontBytesOf selectedItems else 0) +
    (if f.components.enabled then componentsBytesOf selectedItems f else 0)
  (perFormat, total)

/-- The mobile bundle warning memo: mobile profile and either an enabled
PNG tier of at least 128 px or an estimated total above 500 kB. -/
def mobileWarning (profile : ProfileKey) (f : Formats) (total : ℤ) : Bool :=
  let isMobile := decide (profile = .mobile)
  let heavyPng := f.png.enabled && f.png.sizes.any (fun s => decide (128 ≤ s))
  let largeBundle := decide (500000 < total)
  isMobile && (heavyPng || largeBundle)

/-! ## Batch progress engine (source part_004 lines 280-346, 368) -/

/-- The terminal record handed to onExportComplete (the batch id string,
derived from the wall clock, is omitted). -/
structure ExportOutcome where
  success : Bool
  processedCount : ℕ
  totalCount : ℕ
  archiveSizeBytes : ℤ
deriving DecidableEq

/-- State of one batch run: per-item counters in selection order, the
interval-active flag, the last reported overall percentage, the outcomes
emitted so far and the archive size captured from the estimates at start. -/
structure BatchRun where
  progress : List ℕ
  total : ℕ
  running : Bool
  batchProgress : ℤ
  outcomes : List ExportOutcome
  archiveSize : ℤ
deriving DecidableEq

/-- canExport of the source (line 368): a non-empty selection and at least
one enabled format, where components counts only with a target. -/
def canExport (selectedItems : List ExpItem) (f : Formats) : Bool :=
  decide (0 < selectedItems.length) &&
    (f.svg.enabled || f.png.enabled || f.ico.enabled || f.sprite.enabled ||
      f.font.enabled || (f.components.enabled && decide (0 < f.components.targets.length)))

/-- startExport of the source: an empty selection is rejected with an
error toast and no state change; otherwise counters start at zero and the
closure captures the current estimated total as the archive size. -/
def startExportFn (selectedItems : List ExpItem) (archive : ℤ) : Option BatchRun :=
  if selectedItems.length = 0 then none
  else some
    { progress := selectedItems.map (fun _ => 0)
      total := selectedItems.length
      running := true
      batchProgress := 0
      outcomes := []
      archiveSize := archive }

/-- Starting through the UI: every export button is disabled unless
canExport holds, so a click reaches startExport only when it does. -/
def startExportUI (selectedItems : List ExpItem) (f : Formats) (archive : ℤ) :
    Option BatchRun :=
  if canExport selectedItems f then startExportFn selectedItems archive else none

/-- One counter step: a counter below 100 advances by the increment,
clamped to 100; a finished counter is left alone. -/
def stepCounter (p inc : ℕ) : ℕ :=
  if p < 100 then min 100 (p + inc) else p

/-- Advances all counters with the per-item increments of one interval firing. -/
def advance (ps incs : List ℕ) : List ℕ :=
  List.zipWith stepCounter ps incs

/-- The overall percentage reported on each tick:
Math.round((sum / (total * 100)) * 100). -/
def overallOf (sumv : ℕ) (total : ℕ) : ℤ :=
  jsRoundQ (((sumv : ℚ) / ((total : ℚ) * 100)) * 100)

/-- One firing of the interval timer.  While the interval is active every
unfinished counter advances, the overall percentage is stored, and on
reaching 100 the interval is cleared, the exporting flag dropped and one
outcome emitted.  A cleared interval never fires again, so a finished run
is a fixed point. -/
def tick (incs : List ℕ) (r : BatchRun) : BatchRun :=
  if r.running then
    let next := advance r.progress incs
    let overall := overallOf next.sum r.total
    if 100 ≤ overall then
      { progress := next
        total := r.total
        running := false
        batchProgress := overall
        outcomes := r.outcomes ++
          [{ success := true
             processedCount := r.total
             totalCount := r.total
             archiveSizeBytes := r.archiveSize }]
        archiveSize := r.archiveSize }
    else
      { r with progress := next, batchProgress := overall }
  else r

/-- The state after the first k firings of the interval, with the
increments of firing number i drawn from sched i. -/
def ticksUpTo (sched : ℕ → List ℕ) : ℕ → BatchRun → BatchRun
  | 0, r => r
  | k + 1, r => tick (sched k) (ticksUpTo sched k r)

/-- A valid increment vector for one firing: one increment per item, each
of the form 8 + Math.round(Math.random() * 12), hence in [8, 20]. -/
def ValidIncs (n : ℕ) (incs : List ℕ) : Prop :=
  incs.length = n ∧ ∀ i ∈ incs, 8 ≤ i ∧ i ≤ 20

/-! ## Collection consistency auditor: data model (source part_003) -/

/-- IconItem of the source: stroke weight and grid alignment are optional. -/
structure IconItem where
  id : String
  name : String
  svg : String
  strokeWeight : Option ℚ
  gridAligned : Option Bool
  tags : List String
deriving DecidableEq

/-- IconCollection of the source (collaboration metadata kept for
completeness; the audit never reads it). -/
structure IconCollection where
  id : String
  name : String
  icons : List IconItem
  shared : Option Bool
  collaborators : List String
deriving DecidableEq

/-- Wraps an integer into the signed 32-bit range, modelling the
JavaScript | 0 coercion and the 32-bit left shift. -/
def toInt32 (n : ℤ) : ℤ := (n + 2 ^ 31) % 2 ^ 32 - 2 ^ 31

/-- One character step of hashString: h = (h << 5) - h + charCode; h |= 0. -/
def hashStep (h : ℤ) (c : Char) : ℤ :=
  toInt32 (toInt32 (h * 32) - h + c.toNat)

/-- hashString of the source up to base-36 printing: the printed string is
determined by (and determines) the absolute value of the 32-bit hash, so
grouping by the printed hash equals grouping by this natural number. -/
def hashKey (s : String) : ℕ :=
  (s.data.foldl hashStep 0).natAbs

/-- String.prototype.trim: strip whitespace from both ends. -/
def jsTrim (s : String) : String :=
  ⟨((s.data.dropWhile Char.isWhitespace).reverse.dropWhile Char.isWhitespace).reverse⟩

/-- The content hash used for duplicate grouping: the hash of the trimmed
SVG markup. -/
def iconHash (i : IconItem) : ℕ :=
  hashKey (jsTrim i.svg)

/-- Occurrence count of a value in a list, written out as a filtered length. -/
def occCount (ws : List ℚ) (w : ℚ) : ℕ :=
  (ws.filter (fun v => v = w)).length

/-- The stroke-weight frequency Map of the source, insertion ordered. -/
def freqOf (ws : List ℚ) : List (ℚ × ℕ) :=
  groupFold (fun w => w) (fun c _ => c + 1) 0 ws

/-- The mode-selection loop of the source: start from weights[0] with best
0 and keep the first entry that strictly beats the running best. -/
def pickMode (w0 : ℚ) (freq : List (ℚ × ℕ)) : ℚ :=
  (freq.foldl (fun tb kc => if tb.2 < kc.2 then kc else tb) (w0, 0)).1

/-- The duplicate-grouping Map of the source: icon ids grouped by content
hash, in insertion order. -/
def groupByHash (icons : List IconItem) : List (ℕ × List String) :=
  groupFold iconHash (fun v i => v ++ [i.id]) [] icons

/-- AuditResult of the source. -/
structure AuditResult where
  duplicates : List (ℕ × List String)
  mixedStroke : Option (ℚ × List String)
  offGrid : List String
  totalIssues : ℕ
deriving DecidableEq

/-- The duplicate groups of computeAudit: hash groups with at least two members. -/
def auditDuplicates (c : IconCollection) : List (ℕ × List String) :=
  (groupByHash c.icons).filter (fun d => 1 < d.2.length)

/-- The defined stroke weights of the collection, in icon order. -/
def auditWeights (c : IconCollection) : List ℚ :=
  c.icons.filterMap (fun i => i.strokeWeight)

/-- The icons whose defined stroke weight differs from the target, as ids. -/
def auditDiffering (c : IconCollection) (targetWeight : ℚ) : List String :=
  (c.icons.filter (fun i =>
    match i.strokeWeight with
    | some w => decide (w ≠ targetWeight)
    | none => false)).map (fun i => i.id)

/-- The mixedStroke field of computeAudit: with at least one defined
weight, the mode is picked and the differing icons flagged; null when
nothing differs. -/
def auditMixedStroke (c : IconCollection) : Option (ℚ × List String) :=
  match auditWeights c with
  | [] => none
  | w0 :: rest =>
    if auditDiffering c (pickMode w0 (freqOf (w0 :: rest))) = [] then none
    else some (pickMode w0 (freqOf (w0 :: rest)),
      auditDiffering c (pickMode w0 (freqOf (w0 :: rest))))

/-- The offGrid field of computeAudit: icons explicitly marked unaligned. -/
def auditOffGrid (c : IconCollection) : List String :=
  (c.icons.filter (fun i => i.gridAligned = some false)).map (fun i => i.id)

/-- computeAudit of the source (part_003 lines 116-160). -/
def computeAudit (c : IconCollection) : AuditResult :=
  { duplicates := auditDuplicates c
    mixedStroke := auditMixedStroke c
    offGrid := auditOffGrid c
    totalIssues :=
      ((auditDuplicates c).map (fun d => d.2.length - 1)).sum +
        (match auditMixedStroke c with
         | some (_, ids) => ids.length
         | none => 0) +
        (auditOffGrid c).length }

/-- readiness of the source: 100 with no issues, else 100 minus capped
penalties, never below 20. -/
def readiness (result : AuditResult) : ℤ :=
  if result.totalIssues = 0 then 100
  else
    let penalty : ℤ :=
      (result.duplicates.map (fun d => ((d.2.length : ℤ) - 1) * 10)).sum +
        (match result.mixedStroke with
         | some (_, ids) => (ids.length : ℤ) * 5
         | none => 0) +
        (result.offGrid.length : ℤ) * 5
    max 20 (100 - min 80 penalty)

/-! ## Claim C7 -/

/-- Outlier count as stated by the claim: the number of icons whose defined
stroke weight differs from the modal weight, zero when no weight is defined. -/
def specOutlierCountC7 (c : IconCollection) : ℕ :=
  match auditWeights c with
  | [] => 0
  | w0 :: rest => (auditDiffering c (pickMode w0 (freqOf (w0 :: rest)))).length

/-- Example collection with two icons sharing identical SVG content. -/
def dupCol : IconCollection :=
  { id := "c1"
    name := "c1"
    icons :=
      [ { id := "A", name := "A", svg := "m", strokeWeight := none, gridAligned := none, tags := [] }
      , { id := "B", name := "B", svg := "m", strokeWeight := none, gridAligned := none, tags := [] }
      , { id := "C", name := "C", svg := "x", strokeWeight := none, gridAligned := none, tags := [] } ]
    shared := none
    collaborators := [] }

/-- Example collection with stroke weights 1, 1, 2. -/
def strokeCol : IconCollection :=
  { id := "c2"
    name := "c2"
    icons :=
      [ { id := "a", name := "a", svg := "p", strokeWeight := some 1, gridAligned := none, tags := [] }
      , { id := "b", name := "b", svg := "q", strokeWeight := some 1, gridAligned := none, tags := [] }
      , { id := "c", name := "c", svg := "r", strokeWeight := some 2, gridAligned := none, tags := [] } ]
    shared := none
    collaborators := [] }

/-! ## Claims C6 and C10 -/

/-- A hub state with the initial configuration of the source component. -/
def sampleHub : HubState :=
  { profile := .web
    formats :=
      { svg := ⟨true, .standard, false⟩
        png := ⟨false, [16, 24, 32, 48, 64], .transparent⟩
        ico := ⟨false⟩
        sprite := ⟨false, .packed⟩
        font := ⟨false, false⟩
        components := ⟨true, [.react]⟩ }
    naming := ⟨"{name}", true⟩
    colorMappingEnabled := false
    colorMap := [⟨"brand.primary", "#ee5144"⟩]
    delivery := ⟨false, "", "", 3600⟩
    webhook := ⟨false, "", "", ⟨true, true⟩⟩
    selection := fun _ => true }

/-- A preset payload with every field absent. -/
def emptyPreset : Preset :=
  ⟨none, none, none, none, none, none, none⟩

/-! ## Claim C5 -/

/-- Startability as the claim words it, for comparison with the code:
a non-empty selection and at least one enabled format with non-empty
effective parameters, where png requires a size and components a target. -/
def specStartableC5 (sel : List ExpItem) (f : Formats) : Bool :=
  decide (sel ≠ []) &&
    (f.svg.enabled || f.ico.enabled || f.sprite.enabled || f.font.enabled ||
      (f.png.enabled && decide (f.png.sizes ≠ [])) ||
      (f.components.enabled && decide (f.components.targets ≠ [])))

/-- Item used in concrete scenarios. -/
def itemA : ExpItem := ⟨"a", "a", 1000⟩

/-- Configuration with PNG enabled but no sizes and everything else off. -/
def cfgPngNoSizes : Formats :=
  ⟨⟨false, .standard, false⟩, ⟨true, [], .transparent⟩, ⟨false⟩, ⟨false, .packed⟩,
    ⟨false, false⟩, ⟨false, []⟩⟩

/-- Configuration with only SVG enabled. -/
def cfgSvgOnly : Formats :=
  ⟨⟨true, .standard, false⟩, ⟨false, [16, 24, 32, 48, 64], .transparent⟩, ⟨false⟩,
    ⟨false, .packed⟩, ⟨false, false⟩, ⟨false, []⟩⟩

/-- The handle produced when exporting itemA under cfgSvgOnly. -/
def runA : BatchRun := ⟨[0], 1, true, 0, [], 7⟩

/-! ## Claim C4 -/

/-- A running batch of two items with counters 42 and 41. -/
def cexRun : BatchRun := ⟨[42, 41], 2, true, 0, [], 0⟩

/-- Configuration breaking the claim: PNG (128 px), sprite and font enabled. -/
def cfgC2 : Formats :=
  ⟨⟨false, .standard, false⟩, ⟨true, [128], .transparent⟩, ⟨false⟩, ⟨true, .packed⟩,
    ⟨true, false⟩, ⟨false, []⟩⟩

/-- Configuration with every format enabled. -/
def cfgAll : Formats :=
  ⟨⟨true, .standard, false⟩, ⟨true, [128], .transparent⟩, ⟨true⟩, ⟨true, .packed⟩,
    ⟨true, false⟩, ⟨true, [.react]⟩⟩

/-! ## Claim C8 -/

/-- The warning as the claim words it: any configured PNG size of at least
128 counts regardless of whether the png format is enabled. -/
def specMobileWarnC8 (p : ProfileKey) (f : Formats) (total : ℤ) : Bool :=
  decide (p = ProfileKey.mobile) &&
    (f.png.sizes.any (fun s => decide (128 ≤ s)) || decide (500000 < total))

/-- Configuration with only SVG enabled but a configured 128 px PNG size. -/
def cfgC8 : Formats :=
  ⟨⟨true, .standard, false⟩, ⟨false, [128], .transparent⟩, ⟨false⟩, ⟨false, .packed⟩,
    ⟨false, false⟩, ⟨false, []⟩⟩

/-- Configuration with components enabled but no targets. -/
def cfgCompsNoTargets : Formats :=
  ⟨⟨false, .standard, false⟩, ⟨false, [16], .transparent⟩, ⟨false⟩, ⟨false, .packed⟩,
    ⟨false, false⟩, ⟨true, []⟩⟩

/-! ## Claim C1 -/

/-- C1: the per-asset size estimators compute exactly the documented
formulas — SVG max(350, round(b × f)) with f = 1, 0.88, 0.78; PNG
max(900, round(b × (s/24)^1.6 × 1.15)); ICO max(3000, round(b × 0.65) +
1024); component wrapper max(220, round(b × 0.05)) — and in particular a
1000-byte asset yields 880 for standard SVG and 3486 for a 48 px PNG. -/
theorem c1_estimator_formulas (b : ℕ) :
    estimatePerSvg b .none = max 350 (jsRoundQ ((b : ℚ) * 1)) ∧
    estimatePerSvg b .standard = max 350 (jsRoundQ ((b : ℚ) * (88/100))) ∧
    estimatePerSvg b .aggressive = max 350 (jsRoundQ ((b : ℚ) * (78/100))) ∧
    (∀ s : ℕ, estimatePerPng b s =
      max 900 (jsRoundR ((b : ℝ) * (((s : ℝ) / 24) ^ (1.6 : ℝ)) * 1.15))) ∧
    estimateIco b = max 3000 (jsRoundQ ((b : ℚ) * (65/100)) + 1024) ∧
    estimateComponent b = max 220 (jsRoundQ ((b : ℚ) * (5/100))) ∧
    estimatePerSvg 1000 .standard = 880 ∧
    estimatePerPng 1000 48 = 3486 := by
  refine ⟨rfl, rfl, rfl, fun s => rfl, rfl, rfl, ?_, ?_⟩
  · show max 350 (jsRoundQ ((1000 : ℚ) * (88/100))) = 880
    unfold jsRoundQ
    norm_num
  · have h24 : ((48 : ℕ) : ℝ) / 24 = 2 := by norm_num
    have h16 : (1.6 : ℝ) = (8 : ℝ) * ((5 : ℝ)⁻¹) := by norm_num
    have hpow : (2 : ℝ) ^ (1.6 : ℝ) = ((256 : ℝ)) ^ ((5 : ℝ)⁻¹) := by
      rw [h16, Real.rpow_mul (by norm_num : (0:ℝ) ≤ 2)]
      congr 1
      rw [show (8 : ℝ) = ((8 : ℕ) : ℝ) by norm_num, Real.rpow_natCast]
      norm_num
    have hx5 : (((256 : ℝ)) ^ ((5 : ℝ)⁻¹)) ^ (5 : ℕ) = 256 := by
      rw [← Real.rpow_natCast (((256 : ℝ)) ^ ((5 : ℝ)⁻¹)) 5,
        ← Real.rpow_mul (by norm_num : (0:ℝ) ≤ 256)]
      norm_num
    set x : ℝ := ((256 : ℝ)) ^ ((5 : ℝ)⁻¹) with hxdef
    have hx0 : 0 ≤ x := Real.rpow_nonneg (by norm_num) _
    have hlb : (6971 : ℝ)/2300 ≤ x := by
      have h5 : ((6971 : ℝ)/2300) ^ (5 : ℕ) ≤ x ^ (5 : ℕ) := by
        rw [hx5]; norm_num
      exact (pow_le_pow_iff_left₀ (by norm_num) hx0 (by norm_num)).mp h5
    have hub : x < (6973 : ℝ)/2300 := by
      have h5 : x ^ (5 : ℕ) < ((6973 : ℝ)/2300) ^ (5 : ℕ) := by
        rw [hx5]; norm_num
      exact (pow_lt_pow_iff_left₀ hx0 (by norm_num) (by norm_num)).mp h5
    show max 900 (jsRoundR ((1000 : ℝ) * ((((48:ℕ) : ℝ) / 24) ^ (1.6 : ℝ)) * 1.15)) = 3486
    rw [h24, hpow]
    unfold jsRoundR
    have hfloor : ⌊(1000 : ℝ) * x * 1.15 + 1/2⌋ = 3486 := by
      rw [Int.floor_eq_iff]
      constructor
      · push_cast
        linarith
      · push_cast
        linarith
    rw [hfloor]
    norm_num

/-! ## Lemmas about the insertion-ordered map model -/

theorem dedupFirst_foldl_mem {α : Type} [DecidableEq α] (l : List α) (acc : List α) (x : α) :
    (x ∈ l.foldl (fun a y => if y ∈ a then a else a ++ [y]) acc) ↔ x ∈ acc ∨ x ∈ l := by
  induction l generalizing acc with
  | nil => simp
  | cons y rest ih =>
    by_cases hy : y ∈ acc
    · simp only [List.foldl_cons, if_pos hy, ih]
      constructor
      · rintro (h | h)
        · exact Or.inl h
        · exact Or.inr (List.mem_cons_of_mem _ h)
      · rintro (h | h)
        · exact Or.inl h
        · rcases List.mem_cons.mp h with h | h
          · exact Or.inl (h ▸ hy)
          · exact Or.inr h
    · simp only [List.foldl_cons, if_neg hy, ih, List.mem_append, List.mem_singleton,
        List.mem_cons]
      tauto

theorem dedupFirst_foldl_nodup {α : Type} [DecidableEq α] (l : List α) (acc : List α)
    (hacc : acc.Nodup) :
    (l.foldl (fun a y => if y ∈ a then a else a ++ [y]) acc).Nodup := by
  induction l generalizing acc with
  | nil => simpa using hacc
  | cons y rest ih =>
    by_cases hy : y ∈ acc
    · rw [List.foldl_cons, if_pos hy]
      exact ih acc hacc
    · rw [List.foldl_cons, if_neg hy]
      refine ih (acc ++ [y]) ?_
      simp [List.nodup_append, hacc, hy]

theorem mem_dedupFirst {α : Type} [DecidableEq α] (l : List α) (x : α) :
    x ∈ dedupFirst l ↔ x ∈ l := by
  unfold dedupFirst
  rw [dedupFirst_foldl_mem]
  simp

theorem nodup_dedupFirst {α : Type} [DecidableEq α] (l : List α) :
    (dedupFirst l).Nodup :=
  dedupFirst_foldl_nodup l [] List.nodup_nil

theorem dedupFirst_append_singleton {α : Type} [DecidableEq α] (l : List α) (x : α) :
    dedupFirst (l ++ [x]) =
      if x ∈ l then dedupFirst l else dedupFirst l ++ [x] := by
  unfold dedupFirst
  rw [List.foldl_append]
  simp only [List.foldl_cons, List.foldl_nil]
  by_cases hx : x ∈ l
  · rw [if_pos, if_pos hx]
    rw [dedupFirst_foldl_mem]
    exact Or.inr hx
  · rw [if_neg, if_neg hx]
    rw [dedupFirst_foldl_mem]
    simp [hx]

theorem upsert_map_of_mem {κ β : Type} [DecidableEq κ] (d : List κ) (G : κ → β)
    (k : κ) (f : β → β) (z : β) (hnd : d.Nodup) (hk : k ∈ d) :
    upsert k f z (d.map (fun a => (a, G a))) =
      d.map (fun a => (a, if a = k then f (G a) else G a)) := by
  induction d with
  | nil => cases hk
  | cons a rest ih =>
    by_cases hak : a = k
    · have hstep : upsert k f z ((a, G a) :: rest.map (fun b => (b, G b))) =
          (a, f (G a)) :: rest.map (fun b => (b, G b)) := by
        simp [upsert, hak]
      rw [List.map_cons, hstep, List.map_cons, if_pos hak]
      congr 1
      refine (List.map_congr_left ?_).symm
      intro b hb
      have hba : b ≠ k := by
        intro hbk
        exact (List.nodup_cons.mp hnd).1 (by rw [← hak] at hbk; exact hbk ▸ hb)
      simp [hba]
    · have hkrest : k ∈ rest := by
        rcases List.mem_cons.mp hk with h | h
        · exact absurd h.symm hak
        · exact h
      have hstep : upsert k f z ((a, G a) :: rest.map (fun b => (b, G b))) =
          (a, G a) :: upsert k f z (rest.map (fun b => (b, G b))) := by
        simp [upsert, hak]
      rw [List.map_cons, hstep, ih (List.nodup_cons.mp hnd).2 hkrest, List.map_cons, if_neg hak]

theorem upsert_map_of_not_mem {κ β : Type} [DecidableEq κ] (d : List κ) (G : κ → β)
    (k : κ) (f : β → β) (z : β) (hk : k ∉ d) :
    upsert k f z (d.map (fun a => (a, G a))) =
      d.map (fun a => (a, G a)) ++ [(k, z)] := by
  induction d with
  | nil => rfl
  | cons a rest ih =>
    have hne : a ≠ k := fun hak => hk (hak ▸ List.mem_cons_self a rest)
    simp only [List.map_cons, upsert, if_neg hne, List.cons_append]
    rw [ih (fun h => hk (List.mem_cons_of_mem _ h))]

theorem groupFold_eq {α κ β : Type} [DecidableEq κ]
    (key : α → κ) (add : β → α → β) (emp : β) (xs : List α) :
    groupFold key add emp xs =
      (dedupFirst (xs.map key)).map
        (fun k => (k, (xs.filter (fun x => key x = k)).foldl add emp)) := by
  induction xs using List.reverseRecOn with
  | nil => rfl
  | append_singleton xs x ih =>
    have hfold : groupFold key add emp (xs ++ [x]) =
        upsert (key x) (fun v => add v x) (add emp x) (groupFold key add emp xs) := by
      unfold groupFold
      rw [List.foldl_append]
      rfl
    rw [hfold, ih]
    have hmapapp : (xs ++ [x]).map key = xs.map key ++ [key x] := by simp
    by_cases hx : key x ∈ xs.map key
    · rw [upsert_map_of_mem _ _ _ _ _ (nodup_dedupFirst _) ((mem_dedupFirst _ _).mpr hx)]
      rw [hmapapp, dedupFirst_append_singleton, if_pos hx]
      refine List.map_congr_left ?_
      intro k hkmem
      by_cases hkx : k = key x
      · have hfilter : (xs ++ [x]).filter (fun y => key y = k) =
            xs.filter (fun y => key y = k) ++ [x] := by
          rw [List.filter_append]
          simp [hkx.symm]
        rw [if_pos hkx, hfilter, List.foldl_append]
        rfl
      · have hfilter : (xs ++ [x]).filter (fun y => key y = k) =
            xs.filter (fun y => key y = k) := by
          rw [List.filter_append]
          have hne : ¬ key x = k := fun h => hkx h.symm
          simp [hne]
        rw [if_neg hkx, hfilter]
    · rw [upsert_map_of_not_mem _ _ _ _ _ (fun h => hx ((mem_dedupFirst _ _).mp h))]
      rw [hmapapp, dedupFirst_append_singleton, if_neg hx]
      rw [List.map_append]
      congr 1
      · refine List.map_congr_left ?_
        intro k hkmem
        have hkx : ¬ key x = k := by
          intro h
          exact hx (h ▸ (mem_dedupFirst _ _).mp hkmem)
        have hfilter : (xs ++ [x]).filter (fun y => key y = k) =
            xs.filter (fun y => key y = k) := by
          rw [List.filter_append]
          simp [hkx]
        rw [hfilter]
      · have hnone : xs.filter (fun y => key y = key x) = [] := by
          rw [List.filter_eq_nil_iff]
          intro a ha hkeq
          have h1 : key a = key x := by simpa using hkeq
          exact hx (h1 ▸ List.mem_map_of_mem key ha)
        have hfilter : (xs ++ [x]).filter (fun y => key y = key x) = [x] := by
          rw [List.filter_append, hnone]
          simp
        rw [List.map_singleton, hfilter]
        rfl

/-! ## Lemmas about the frequency map and the mode-selection fold -/

theorem foldl_tally {α : Type} (l : List α) (n : ℕ) :
    l.foldl (fun c _ => c + 1) n = n + l.length := by
  induction l generalizing n with
  | nil => simp
  | cons a rest ih => simp [ih, Nat.add_assoc, Nat.add_comm 1 rest.length]

theorem foldl_append_map {α β : Type} (g : α → β) (l : List α) (acc : List β) :
    l.foldl (fun v a => v ++ [g a]) acc = acc ++ l.map g := by
  induction l generalizing acc with
  | nil => simp
  | cons a rest ih => simp [ih]

/-- The frequency Map in closed form: distinct weights in first-occurrence
order, each paired with its occurrence count. -/
theorem freqOf_eq (ws : List ℚ) :
    freqOf ws = (dedupFirst ws).map (fun k => (k, occCount ws k)) := by
  unfold freqOf occCount
  rw [groupFold_eq]
  rw [show ws.map (fun w => w) = ws from by simp]
  refine List.map_congr_left ?_
  intro k _
  rw [foldl_tally]
  simp

/-- The duplicate-grouping Map in closed form: distinct hashes in
first-occurrence order, each paired with the ids of all icons carrying it,
in icon order. -/
theorem groupByHash_eq (icons : List IconItem) :
    groupByHash icons =
      (dedupFirst (icons.map iconHash)).map
        (fun k => (k, (icons.filter (fun i => iconHash i = k)).map (fun i => i.id))) := by
  unfold groupByHash
  rw [groupFold_eq]
  refine List.map_congr_left ?_
  intro k _
  rw [foldl_append_map]
  rfl

theorem occCount_pos {ws : List ℚ} {w : ℚ} (h : w ∈ ws) : 0 < occCount ws w := by
  unfold occCount
  rw [List.length_pos]
  intro hnil
  have : w ∈ ws.filter (fun v => v = w) := List.mem_filter.mpr ⟨h, by simp⟩
  rw [hnil] at this
  cases this

/-- The selection fold of pickMode: either nothing beat the seed, or the
result is an entry of the list that strictly beats the seed, is maximal,
and is preceded only by strictly smaller counts. -/
theorem pickFold_spec (l : List (ℚ × ℕ)) (t0 : ℚ) (b0 : ℕ) :
    (l.foldl (fun tb kc => if tb.2 < kc.2 then kc else tb) (t0, b0) = (t0, b0) ∧
      ∀ p ∈ l, p.2 ≤ b0) ∨
    (b0 < (l.foldl (fun tb kc => if tb.2 < kc.2 then kc else tb) (t0, b0)).2 ∧
      (∀ p ∈ l, p.2 ≤ (l.foldl (fun tb kc => if tb.2 < kc.2 then kc else tb) (t0, b0)).2) ∧
      ∃ l1 l2, l = l1 ++ (l.foldl (fun tb kc => if tb.2 < kc.2 then kc else tb) (t0, b0)) :: l2 ∧
        ∀ p ∈ l1, p.2 < (l.foldl (fun tb kc => if tb.2 < kc.2 then kc else tb) (t0, b0)).2) := by
  induction l generalizing t0 b0 with
  | nil => exact Or.inl ⟨rfl, by simp⟩
  | cons q rest ih =>
    by_cases hq : b0 < q.2
    · have hstep : (q :: rest).foldl (fun tb kc => if tb.2 < kc.2 then kc else tb) (t0, b0) =
          rest.foldl (fun tb kc => if tb.2 < kc.2 then kc else tb) (q.1, q.2) := by
        simp [hq]
      rw [hstep]
      rcases ih q.1 q.2 with ⟨heq, hle⟩ | ⟨hgt, hle, l1, l2, hsplit, hpre⟩
      · refine Or.inr ⟨?_, ?_, [], rest, ?_, by simp⟩
        · rw [heq]; exact hq
        · intro p hp
          rw [heq]
          rcases List.mem_cons.mp hp with h | h
          · rw [h]
          · exact hle p h
        · rw [heq]; simp
      · refine Or.inr ⟨lt_trans hq hgt, ?_, q :: l1, l2, ?_, ?_⟩
        · intro p hp
          rcases List.mem_cons.mp hp with h | h
          · rw [h]; exact le_of_lt hgt
          · exact hle p h
        · rw [List.cons_append]
          exact congrArg (List.cons q) hsplit
        · intro p hp
          rcases List.mem_cons.mp hp with h | h
          · rw [h]; exact hgt
          · exact hpre p h
    · have hstep : (q :: rest).foldl (fun tb kc => if tb.2 < kc.2 then kc else tb) (t0, b0) =
          rest.foldl (fun tb kc => if tb.2 < kc.2 then kc else tb) (t0, b0) := by
        simp [hq]
      rw [hstep]
      rcases ih t0 b0 with ⟨heq, hle⟩ | ⟨hgt, hle, l1, l2, hsplit, hpre⟩
      · refine Or.inl ⟨heq, ?_⟩
        intro p hp
        rcases List.mem_cons.mp hp with h | h
        · rw [h]; exact le_of_not_lt hq
        · exact hle p h
      · refine Or.inr ⟨hgt, ?_, q :: l1, l2, ?_, ?_⟩
        · intro p hp
          rcases List.mem_cons.mp hp with h | h
          · rw [h]; exact le_trans (le_of_not_lt hq) (le_of_lt hgt)
          · exact hle p h
        · rw [List.cons_append]
          exact congrArg (List.cons q) hsplit
        · intro p hp
          rcases List.mem_cons.mp hp with h | h
          · rw [h]; exact lt_of_le_of_lt (le_of_not_lt hq) hgt
          · exact hpre p h

/-- Splitting a mapped list around a distinguished element lifts to a
split of the original list. -/
theorem map_eq_append_cons {α β : Type} {f : α → β} {d : List α} {l1 l2 : List β} {r : β}
    (h : d.map f = l1 ++ r :: l2) :
    ∃ d1 a d2, d = d1 ++ a :: d2 ∧ d1.map f = l1 ∧ f a = r ∧ d2.map f = l2 := by
  induction l1 generalizing d with
  | nil =>
    cases d with
    | nil => simp at h
    | cons a d2 =>
      simp only [List.map_cons, List.nil_append] at h
      exact ⟨[], a, d2, by simp, rfl, (List.cons.injEq _ _ _ _ ▸ h).1,
        (List.cons.injEq _ _ _ _ ▸ h).2⟩
  | cons b l1t ih =>
    cases d with
    | nil => simp at h
    | cons a d' =>
      simp only [List.map_cons, List.cons_append, List.cons.injEq] at h
      rcases ih h.2 with ⟨d1, a1, d2, hd, hm1, hfa, hm2⟩
      exact ⟨a :: d1, a1, d2, by rw [hd, List.cons_append], by simp [hm1, h.1], hfa, hm2⟩

/-- pickMode with the real frequency map of a non-empty weight list picks
a weight of the list with maximal occurrence count, and every distinct
weight encountered before it has a strictly smaller count. -/
theorem pickMode_spec (w0 : ℚ) (rest : List ℚ) :
    pickMode w0 (freqOf (w0 :: rest)) ∈ (w0 :: rest) ∧
      (∀ w ∈ w0 :: rest,
        occCount (w0 :: rest) w ≤ occCount (w0 :: rest) (pickMode w0 (freqOf (w0 :: rest)))) ∧
      ∃ l1 l2, dedupFirst (w0 :: rest) = l1 ++ pickMode w0 (freqOf (w0 :: rest)) :: l2 ∧
        ∀ w ∈ l1,
          occCount (w0 :: rest) w < occCount (w0 :: rest) (pickMode w0 (freqOf (w0 :: rest))) := by
  set ws : List ℚ := w0 :: rest with hws0
  set t : ℚ := pickMode w0 (freqOf ws) with hts
  have hfreq : freqOf ws = (dedupFirst ws).map (fun k => (k, occCount ws k)) := freqOf_eq ws
  have hspec := pickFold_spec (freqOf ws) w0 0
  set r := (freqOf ws).foldl (fun tb kc => if tb.2 < kc.2 then kc else tb) (w0, 0) with hr
  have ht : t = r.1 := rfl
  rcases hspec with ⟨heq, hle⟩ | ⟨hgt, hle, l1, l2, hsplit, hpre⟩
  · exfalso
    have hw0 : (w0, occCount ws w0) ∈ freqOf ws := by
      rw [hfreq]
      exact List.mem_map_of_mem _ ((mem_dedupFirst _ _).mpr (List.mem_cons_self _ _))
    have h2 : occCount ws w0 ≤ 0 := hle _ hw0
    have hpos : 0 < occCount ws w0 := occCount_pos (List.mem_cons_self w0 rest)
    omega
  · rcases map_eq_append_cons (hfreq ▸ hsplit) with ⟨d1, a, d2, hd, hm1, hfa, hm2⟩
    have hta : a = t := by
      have : (a, occCount ws a) = r := hfa
      rw [ht, ← this]
    have hrcount : r.2 = occCount ws t := by
      have : (a, occCount ws a) = r := hfa
      rw [← this, hta]
    have htmem : t ∈ ws := by
      have : a ∈ dedupFirst ws := by
        rw [hd]
        exact List.mem_append_right _ (List.mem_cons_self _ _)
      exact (mem_dedupFirst _ _).mp (hta ▸ this)
    refine ⟨htmem, ?_, d1, d2, ?_, ?_⟩
    · intro w hw
      have hwmem : (w, occCount ws w) ∈ freqOf ws := by
        rw [hfreq]
        exact List.mem_map_of_mem _ ((mem_dedupFirst _ _).mpr hw)
      have := hle _ hwmem
      rw [hrcount] at this
      exact this
    · rw [hd, hta]
    · intro w hw
      have hwpair : (w, occCount ws w) ∈ l1 := by
        rw [← hm1]
        exact List.mem_map_of_mem _ hw
      have := hpre _ hwpair
      rw [hrcount] at this
      exact this

theorem auditMixedStroke_nil (c : IconCollection) (h : auditWeights c = []) :
    auditMixedStroke c = none := by
  unfold auditMixedStroke
  rw [h]

theorem auditMixedStroke_cons (c : IconCollection) (w0 : ℚ) (rest : List ℚ)
    (h : auditWeights c = w0 :: rest) :
    auditMixedStroke c =
      if auditDiffering c (pickMode w0 (freqOf (w0 :: rest))) = [] then none
      else some (pickMode w0 (freqOf (w0 :: rest)),
        auditDiffering c (pickMode w0 (freqOf (w0 :: rest)))) := by
  unfold auditMixedStroke
  rw [h]

/-- C7: audit groups icon ids by the hash of the trimmed SVG markup and
keeps the groups with at least two members (soundness, completeness and
uniqueness of the groups); the stroke target is a modal weight, ties broken
by first-encountered value, with all differing defined weights flagged;
totalIssueCount sums group sizes minus one, outliers and off-grid icons;
and the two concrete scenarios of the claim hold. -/
theorem c7_audit_correct (c : IconCollection) :
    (∀ g ∈ (computeAudit c).duplicates,
      2 ≤ g.2.length ∧
        g.2 = (c.icons.filter (fun i => iconHash i = g.1)).map (fun i => i.id)) ∧
    (∀ i ∈ c.icons,
      2 ≤ ((c.icons.filter (fun j => iconHash j = iconHash i)).map (fun j => j.id)).length →
        (iconHash i, (c.icons.filter (fun j => iconHash j = iconHash i)).map (fun j => j.id))
          ∈ (computeAudit c).duplicates) ∧
    ((computeAudit c).duplicates.map Prod.fst).Nodup ∧
    (∀ t ids, (computeAudit c).mixedStroke = some (t, ids) →
      t ∈ auditWeights c ∧
        (∀ w ∈ auditWeights c, occCount (auditWeights c) w ≤ occCount (auditWeights c) t) ∧
        (∃ l1 l2, dedupFirst (auditWeights c) = l1 ++ t :: l2 ∧
          ∀ w ∈ l1, occCount (auditWeights c) w < occCount (auditWeights c) t) ∧
        ids = auditDiffering c t) ∧
    ((computeAudit c).totalIssues =
      ((computeAudit c).duplicates.map (fun g => g.2.length - 1)).sum +
        specOutlierCountC7 c + (computeAudit c).offGrid.length) ∧
    ((computeAudit dupCol).duplicates.map (fun g => g.2) = [["A", "B"]] ∧
      (computeAudit dupCol).totalIssues = 1) ∧
    ((computeAudit strokeCol).mixedStroke = some (1, ["c"]) ∧
      (computeAudit strokeCol).totalIssues = 1) := by
  have hdup : (computeAudit c).duplicates =
      ((dedupFirst (c.icons.map iconHash)).map
        (fun k => (k, (c.icons.filter (fun i => iconHash i = k)).map (fun i => i.id)))).filter
        (fun d => 1 < d.2.length) := by
    show auditDuplicates c = _
    unfold auditDuplicates
    rw [groupByHash_eq]
  refine ⟨?_, ?_, ?_, ?_, ?_, ?_, ?_⟩
  · intro g hg
    rw [hdup] at hg
    have hg' := List.mem_filter.mp hg
    rcases List.mem_map.mp hg'.1 with ⟨k, hk, rfl⟩
    have hlen : 1 < ((c.icons.filter (fun i => iconHash i = k)).map (fun i => i.id)).length := by
      simpa using hg'.2
    exact ⟨hlen, rfl⟩
  · intro i hi hlen
    rw [hdup]
    refine List.mem_filter.mpr ⟨?_, ?_⟩
    · exact List.mem_map.mpr
        ⟨iconHash i, (mem_dedupFirst _ _).mpr (List.mem_map_of_mem _ hi), rfl⟩
    · simp only [decide_eq_true_eq]
      omega
  · rw [hdup, List.filter_map, List.map_map]
    have hfst : (Prod.fst ∘ fun k : ℕ =>
        (k, (c.icons.filter (fun i => iconHash i = k)).map (fun i => i.id))) =
          fun k : ℕ => k := rfl
    rw [hfst]
    have hid : ∀ l : List ℕ, l.map (fun k => k) = l := fun l => by simp
    rw [hid]
    exact (nodup_dedupFirst _).filter _
  · intro t ids hmix
    have hmix' : auditMixedStroke c = some (t, ids) := hmix
    rcases hws : auditWeights c with _ | ⟨w0, rest⟩
    · rw [auditMixedStroke_nil c hws] at hmix'
      cases hmix'
    · rw [auditMixedStroke_cons c w0 rest hws] at hmix'
      by_cases hdiff : auditDiffering c (pickMode w0 (freqOf (w0 :: rest))) = []
      · rw [if_pos hdiff] at hmix'
        cases hmix'
      · rw [if_neg hdiff] at hmix'
        have hpair := Option.some.inj hmix'
        have ht : pickMode w0 (freqOf (w0 :: rest)) = t := congrArg Prod.fst hpair
        have hids : auditDiffering c (pickMode w0 (freqOf (w0 :: rest))) = ids :=
          congrArg Prod.snd hpair
        obtain ⟨hmem, hmax, hsplit⟩ := pickMode_spec w0 rest
        rw [← ht, ← hids]
        exact ⟨hmem, hmax, hsplit, rfl⟩
  · have hti : (computeAudit c).totalIssues =
        ((auditDuplicates c).map (fun d => d.2.length - 1)).sum +
          (match auditMixedStroke c with
           | some (_, ids) => ids.length
           | none => 0) +
          (auditOffGrid c).length := rfl
    rw [hti]
    have hms : (match auditMixedStroke c with
        | some (_, ids) => ids.length
        | none => 0) = specOutlierCountC7 c := by
      unfold specOutlierCountC7
      rcases hws : auditWeights c with _ | ⟨w0, rest⟩
      · rw [auditMixedStroke_nil c hws]
      · rw [auditMixedStroke_cons c w0 rest hws]
        by_cases hdiff : auditDiffering c (pickMode w0 (freqOf (w0 :: rest))) = []
        · rw [if_pos hdiff]
          show 0 = (auditDiffering c (pickMode w0 (freqOf (w0 :: rest)))).length
          rw [hdiff]
          rfl
        · rw [if_neg hdiff]
    rw [hms]
    rfl
  · constructor
    · decide
    · decide
  · constructor
    · decide
    · decide

/-- C7 witness. -/
theorem c7_audit_correct_witness :
    (computeAudit strokeCol).mixedStroke = some (1, ["c"]) ∧
    ((1 : ℚ) ∈ auditWeights strokeCol ∧
      (∀ w ∈ auditWeights strokeCol,
        occCount (auditWeights strokeCol) w ≤ occCount (auditWeights strokeCol) 1) ∧
      (∃ l1 l2, dedupFirst (auditWeights strokeCol) = l1 ++ 1 :: l2 ∧
        ∀ w ∈ l1, occCount (auditWeights strokeCol) w < occCount (auditWeights strokeCol) 1) ∧
      ["c"] = auditDiffering strokeCol 1) :=
  ⟨by decide, (c7_audit_correct strokeCol).2.2.2.1 1 ["c"] (by decide)⟩

/-- C6: applying a preset sets the profile to that key through a
field-level merge in which absent fields keep their prior values, and every
direct mutation of a format or naming field sets the profile to custom
unconditionally, with no reverse-matching against preset values. -/
theorem c6_preset_and_demotion :
    (∀ (k : PresetKey) (s : HubState), (applyPreset k s).profile = k.toProfile) ∧
    (∀ (k : PresetKey) (p : Preset) (s : HubState),
      (p.svg = none → (applyPresetWith k p s).formats.svg = s.formats.svg) ∧
      (p.png = none → (applyPresetWith k p s).formats.png = s.formats.png) ∧
      (p.ico = none → (applyPresetWith k p s).formats.ico = s.formats.ico) ∧
      (p.sprite = none → (applyPresetWith k p s).formats.sprite = s.formats.sprite) ∧
      (p.font = none → (applyPresetWith k p s).formats.font = s.formats.font) ∧
      (p.components = none →
        (applyPresetWith k p s).formats.components = s.formats.components) ∧
      (p.naming = none → (applyPresetWith k p s).naming = s.naming)) ∧
    (∀ (op : MutOp) (s : HubState), (applyMut op s).profile = .custom) := by
  refine ⟨fun k s => rfl, fun k p s => ?_, fun op s => ?_⟩
  · refine ⟨?_, ?_, ?_, ?_, ?_, ?_, ?_⟩ <;> intro h <;> simp [applyPresetWith, h]
  · cases op <;> rfl

/-- C6 witness. -/
theorem c6_preset_and_demotion_witness :
    (applyPreset .web sampleHub).profile = PresetKey.toProfile .web ∧
    (applyPresetWith .web emptyPreset sampleHub).formats.svg = sampleHub.formats.svg ∧
    (applyMut (.setSvgEnabled false) sampleHub).profile = .custom :=
  ⟨c6_preset_and_demotion.1 .web sampleHub,
    (c6_preset_and_demotion.2.1 .web emptyPreset sampleHub).1 rfl,
    c6_preset_and_demotion.2.2 (.setSvgEnabled false) sampleHub⟩

/-- C10: the batch-tab include switch demotes the profile to custom as a
side effect while touching nothing but the toggled selection entry. -/
theorem c10_toggle_include_demotes (id : String) (v : Bool) (s : HubState) :
    (toggleInclude id v s).profile = .custom ∧
    (toggleInclude id v s).selection id = v ∧
    (∀ j, j ≠ id → (toggleInclude id v s).selection j = s.selection j) ∧
    (toggleInclude id v s).formats = s.formats ∧
    (toggleInclude id v s).naming = s.naming ∧
    (toggleInclude id v s).colorMappingEnabled = s.colorMappingEnabled ∧
    (toggleInclude id v s).colorMap = s.colorMap ∧
    (toggleInclude id v s).delivery = s.delivery ∧
    (toggleInclude id v s).webhook = s.webhook := by
  refine ⟨rfl, ?_, ?_, rfl, rfl, rfl, rfl, rfl, rfl⟩
  · simp [toggleInclude]
  · intro j hj
    simp [toggleInclude, hj]

/-- C10 witness. -/
theorem c10_toggle_include_demotes_witness :
    (toggleInclude "a" false sampleHub).profile = .custom ∧
    (toggleInclude "a" false sampleHub).selection "a" = false ∧
    (toggleInclude "a" false sampleHub).selection "b" = sampleHub.selection "b" :=
  ⟨(c10_toggle_include_demotes "a" false sampleHub).1,
    (c10_toggle_include_demotes "a" false sampleHub).2.1,
    (c10_toggle_include_demotes "a" false sampleHub).2.2.1 "b" (by decide)⟩

/-- C5 counterexample: with png enabled, empty png.sizes and no other
format, the claim demands an InvalidConfiguration failure, but canExport
accepts the configuration and a batch handle is produced. -/
theorem c5_counterexample :
    specStartableC5 [itemA] cfgPngNoSizes = false ∧
    (startExportUI [itemA] cfgPngNoSizes 0).isSome = true := by
  constructor
  · decide
  · decide

/-- C5 amended: starting fails exactly on an empty selection or no enabled
format, where only the components format requires non-empty parameters (a
target); emptiness of png.sizes is never checked.  On failure nothing
happens; on success the handle starts with one zero counter per item. -/
theorem c5_start_guard (sel : List ExpItem) (f : Formats) (archive : ℤ) :
    (startExportUI sel f archive = none ↔
      (sel = [] ∨
        (f.svg.enabled = false ∧ f.png.enabled = false ∧ f.ico.enabled = false ∧
          f.sprite.enabled = false ∧ f.font.enabled = false ∧
          (f.components.enabled = false ∨ f.components.targets = [])))) ∧
    (∀ r, startExportUI sel f archive = some r →
      r.progress = sel.map (fun _ => 0) ∧ r.total = sel.length ∧ r.running = true ∧
      r.batchProgress = 0 ∧ r.outcomes = [] ∧ r.archiveSize = archive) := by
  constructor
  · rcases f with ⟨⟨se, so, sf⟩, ⟨pe, ps, pb⟩, ⟨ie⟩, ⟨spe, spl⟩, ⟨fe, fl⟩, ⟨ce, ct⟩⟩
    cases se <;> cases pe <;> cases ie <;> cases spe <;> cases fe <;> cases ce <;>
      simp [startExportUI, canExport, startExportFn, List.length_eq_zero,
        List.length_pos, Nat.pos_iff_ne_zero] <;>
      tauto
  · intro r hr
    unfold startExportUI at hr
    by_cases hc : canExport sel f = true
    · rw [if_pos hc] at hr
      unfold startExportFn at hr
      by_cases hlen : sel.length = 0
      · rw [if_pos hlen] at hr
        cases hr
      · rw [if_neg hlen] at hr
        have := Option.some.inj hr
        rw [← this]
        exact ⟨rfl, rfl, rfl, rfl, rfl, rfl⟩
    · rw [if_neg hc] at hr
      cases hr

/-- C5 witness. -/
theorem c5_start_guard_witness :
    runA.progress = [itemA].map (fun _ => 0) ∧ runA.total = [itemA].length ∧
    runA.running = true ∧ runA.batchProgress = 0 ∧ runA.outcomes = [] ∧
    runA.archiveSize = 7 :=
  (c5_start_guard [itemA] cfgSvgOnly 7).2 runA (by decide)

/-! ## Lemmas about the batch progress engine -/

theorem stepCounter_le_100 {c : ℕ} (i : ℕ) (h : c ≤ 100) : stepCounter c i ≤ 100 := by
  unfold stepCounter
  split <;> omega

theorem stepCounter_lb {c i mn : ℕ} (hc : mn ≤ c) (hi : 8 ≤ i) :
    min 100 (mn + 8) ≤ stepCounter c i := by
  unfold stepCounter
  split <;> omega

theorem advance_all_le {ps incs : List ℕ} (h : ∀ c ∈ ps, c ≤ 100) :
    ∀ c ∈ advance ps incs, c ≤ 100 := by
  unfold advance
  induction ps generalizing incs with
  | nil => simp
  | cons p pt ih =>
    cases incs with
    | nil => simp
    | cons i it =>
      intro c hc
      rcases List.mem_cons.mp hc with hh | hh
      · rw [hh]
        exact stepCounter_le_100 i (h p (List.mem_cons_self _ _))
      · exact ih (fun c hc => h c (List.mem_cons_of_mem _ hc)) c hh

theorem advance_all_lb {ps incs : List ℕ} {mn : ℕ}
    (h : ∀ c ∈ ps, mn ≤ c) (hi : ∀ i ∈ incs, 8 ≤ i) :
    ∀ c ∈ advance ps incs, min 100 (mn + 8) ≤ c := by
  unfold advance
  induction ps generalizing incs with
  | nil => simp
  | cons p pt ih =>
    cases incs with
    | nil => simp
    | cons i it =>
      intro c hc
      rcases List.mem_cons.mp hc with hh | hh
      · rw [hh]
        exact stepCounter_lb (h p (List.mem_cons_self _ _)) (hi i (List.mem_cons_self _ _))
      · exact ih (fun c hc => h c (List.mem_cons_of_mem _ hc))
          (fun j hj => hi j (List.mem_cons_of_mem _ hj)) c hh

theorem advance_length {ps incs : List ℕ} (h : incs.length = ps.length) :
    (advance ps incs).length = ps.length := by
  unfold advance
  rw [List.length_zipWith, h]
  omega

theorem sum_le_of_all_le {ps : List ℕ} (h : ∀ c ∈ ps, c ≤ 100) :
    ps.sum ≤ 100 * ps.length := by
  induction ps with
  | nil => simp
  | cons p pt ih =>
    have h1 := h p (List.mem_cons_self _ _)
    have h2 := ih (fun c hc => h c (List.mem_cons_of_mem _ hc))
    simp only [List.sum_cons, List.length_cons]
    omega

theorem sum_ge_of_all_ge {ps : List ℕ} (h : ∀ c ∈ ps, 100 ≤ c) :
    100 * ps.length ≤ ps.sum := by
  induction ps with
  | nil => simp
  | cons p pt ih =>
    have h1 := h p (List.mem_cons_self _ _)
    have h2 := ih (fun c hc => h c (List.mem_cons_of_mem _ hc))
    simp only [List.sum_cons, List.length_cons]
    omega

theorem overallOf_le_100 {sumv n : ℕ} (hn : 0 < n) (hs : sumv ≤ 100 * n) :
    overallOf sumv n ≤ 100 := by
  unfold overallOf jsRoundQ
  have hn' : (0 : ℚ) < (n : ℚ) * 100 := by positivity
  have hx : ((sumv : ℚ) / ((n : ℚ) * 100)) * 100 ≤ 100 := by
    rw [div_mul_eq_mul_div, div_le_iff hn']
    have : (sumv : ℚ) ≤ 100 * (n : ℚ) := by exact_mod_cast hs
    nlinarith
  calc ⌊((sumv : ℚ) / ((n : ℚ) * 100)) * 100 + 1/2⌋ ≤ ⌊(100 : ℚ) + 1/2⌋ :=
        Int.floor_le_floor (by linarith)
    _ = 100 := by norm_num

theorem overallOf_eq_100 {n : ℕ} (hn : 0 < n) : overallOf (100 * n) n = 100 := by
  unfold overallOf jsRoundQ
  have hn' : (n : ℚ) ≠ 0 := Nat.cast_ne_zero.mpr (Nat.pos_iff_ne_zero.mp hn)
  have hx : (((100 * n : ℕ) : ℚ) / ((n : ℚ) * 100)) * 100 = 100 := by
    push_cast
    field_simp
    ring
  rw [hx]
  norm_num

theorem tick_not_running {incs : List ℕ} {r : BatchRun} (h : r.running = false) :
    tick incs r = r := by
  unfold tick
  rw [h]
  rfl

/-- C4 counterexample: advancing counters 42 and 41 by 8 each gives
counters 50 and 49, whose reported overall is Math.round(49.5) = 50,
whereas the floor formula of the claim yields 49. -/
theorem c4_counterexample :
    (tick [8, 8] cexRun).batchProgress = 50 ∧
    (⌊(((advance cexRun.progress [8, 8]).sum : ℚ) / ((cexRun.total : ℚ) * 100)) * 100⌋ : ℤ)
      = 49 := by
  have hadv : advance cexRun.progress [8, 8] = [50, 49] := by decide
  constructor
  · have hov : overallOf 99 2 = 50 := by
      unfold overallOf jsRoundQ
      norm_num
    have hlt : ¬ (100 : ℤ) ≤ overallOf ((advance cexRun.progress [8, 8]).sum) cexRun.total := by
      rw [hadv]
      show ¬ (100 : ℤ) ≤ overallOf 99 2
      rw [hov]
      norm_num
    show (tick [8, 8] cexRun).batchProgress = 50
    unfold tick
    rw [if_pos (show cexRun.running = true by rfl), if_neg hlt]
    show overallOf ((advance cexRun.progress [8, 8]).sum) cexRun.total = 50
    rw [hadv]
    exact hov
  · rw [hadv]
    show (⌊((99 : ℚ) / ((2 : ℚ) * 100)) * 100⌋ : ℤ) = 49
    norm_num

/-- C4 amended: on every tick of a running batch the reported overall
progress is the half-up rounding (not the floor) of
sum(counters) / (itemCount × 100) × 100, that is floor(sum/itemCount + 1/2). -/
theorem c4_overall_rounds (r : BatchRun) (incs : List ℕ)
    (hrun : r.running = true) (hn : 0 < r.total) :
    (tick incs r).batchProgress =
      ⌊((advance r.progress incs).sum : ℚ) / (r.total : ℚ) + 1/2⌋ := by
  have hof : overallOf (advance r.progress incs).sum r.total =
      ⌊((advance r.progress incs).sum : ℚ) / (r.total : ℚ) + 1/2⌋ := by
    unfold overallOf jsRoundQ
    congr 1
    have hn' : (r.total : ℚ) ≠ 0 := Nat.cast_ne_zero.mpr (Nat.pos_iff_ne_zero.mp hn)
    field_simp
    ring
  unfold tick
  rw [if_pos hrun]
  by_cases hov : (100 : ℤ) ≤ overallOf (advance r.progress incs).sum r.total
  · rw [if_pos hov]
    exact hof
  · rw [if_neg hov]
    exact hof

/-- C4 witness. -/
theorem c4_overall_rounds_witness :
    (tick [8, 8] cexRun).batchProgress =
      ⌊((advance cexRun.progress [8, 8]).sum : ℚ) / (cexRun.total : ℚ) + 1/2⌋ :=
  c4_overall_rounds cexRun [8, 8] rfl (by decide)

/-! ## Claim C3 -/

/-- C3: starting a batch on a non-empty selection initialises one zero
counter per item; under any schedule of valid per-tick increments (each in
[8, 20], clamped at 100), thirteen ticks suffice to drive the reported
overall progress to exactly 100, at which point the interval is cleared,
the completion outcome has been emitted exactly once with
processedCount = totalCount = itemCount, success and the archive size
captured at start, and every further tick leaves the state unchanged. -/
theorem c3_batch_completion (sel : List ExpItem) (hne : sel ≠ []) (archive : ℤ)
    (sched : ℕ → List ℕ) (hv : ∀ k, ValidIncs sel.length (sched k)) :
    ∃ r0 : BatchRun, startExportFn sel archive = some r0 ∧
      r0.progress = sel.map (fun _ => 0) ∧ r0.batchProgress = 0 ∧
      (ticksUpTo sched 13 r0).running = false ∧
      (ticksUpTo sched 13 r0).batchProgress = 100 ∧
      (ticksUpTo sched 13 r0).outcomes =
        [{ success := true, processedCount := sel.length, totalCount := sel.length,
           archiveSizeBytes := archive }] ∧
      (∀ m, 13 ≤ m → ticksUpTo sched m r0 = ticksUpTo sched 13 r0) := by
  have hlen0 : sel.length ≠ 0 := by
    simpa [List.length_eq_zero] using hne
  have hn : 0 < sel.length := Nat.pos_of_ne_zero hlen0
  have hstart : startExportFn sel archive =
      some { progress := sel.map (fun _ => 0)
             total := sel.length
             running := true
             batchProgress := 0
             outcomes := []
             archiveSize := archive } := by
    unfold startExportFn
    rw [if_neg hlen0]
  refine ⟨_, hstart, rfl, rfl, ?_⟩
  set r0 : BatchRun := { progress := sel.map (fun _ => 0)
                         total := sel.length
                         running := true
                         batchProgress := 0
                         outcomes := []
                         archiveSize := archive } with hr0
  set res : ExportOutcome := { success := true
                               processedCount := sel.length
                               totalCount := sel.length
                               archiveSizeBytes := archive } with hres
  -- the tick invariant
  have inv : ∀ k, (ticksUpTo sched k r0).total = sel.length ∧
      (ticksUpTo sched k r0).archiveSize = archive ∧
      (ticksUpTo sched k r0).progress.length = sel.length ∧
      (∀ c ∈ (ticksUpTo sched k r0).progress, c ≤ 100) ∧
      (((ticksUpTo sched k r0).running = true ∧ (ticksUpTo sched k r0).outcomes = [] ∧
          ∀ c ∈ (ticksUpTo sched k r0).progress, min 100 (8 * k) ≤ c) ∨
        ((ticksUpTo sched k r0).running = false ∧
          (ticksUpTo sched k r0).batchProgress = 100 ∧
          (ticksUpTo sched k r0).outcomes = [res])) := by
    intro k
    induction k with
    | zero =>
      refine ⟨rfl, rfl, by simp [ticksUpTo, hr0], ?_, Or.inl ⟨rfl, rfl, ?_⟩⟩
      · intro c hc
        rcases List.mem_map.mp hc with ⟨i, _, hci⟩
        omega
      · intro c hc
        rcases List.mem_map.mp hc with ⟨i, _, hci⟩
        omega
    | succ k ih =>
      obtain ⟨htot, harch, hplen, hple, hrest⟩ := ih
      have hstep : ticksUpTo sched (k + 1) r0 = tick (sched k) (ticksUpTo sched k r0) := rfl
      rcases hrest with ⟨hrun, hout, hlb⟩ | ⟨hstop, hbp, hout⟩
      · -- still running: the timer fires
        obtain ⟨hil, hib⟩ := hv k
        have hnext_le : ∀ c ∈ advance (ticksUpTo sched k r0).progress (sched k), c ≤ 100 :=
          advance_all_le hple
        have hnext_lb : ∀ c ∈ advance (ticksUpTo sched k r0).progress (sched k),
            min 100 (8 * (k + 1)) ≤ c := by
          intro c hc
          have h1 := advance_all_lb hlb (fun i hi => (hib i hi).1) c hc
          omega
        have hnext_len : (advance (ticksUpTo sched k r0).progress (sched k)).length =
            sel.length := by
          rw [advance_length (by rw [hil, hplen]), hplen]
        rw [hstep]
        unfold tick
        rw [if_pos hrun]
        by_cases hov : (100 : ℤ) ≤
            overallOf (advance (ticksUpTo sched k r0).progress (sched k)).sum
              (ticksUpTo sched k r0).total
        · rw [if_pos hov]
          refine ⟨htot, harch, hnext_len, hnext_le, Or.inr ⟨rfl, ?_, ?_⟩⟩
          · show overallOf (advance (ticksUpTo sched k r0).progress (sched k)).sum
                (ticksUpTo sched k r0).total = 100
            refine le_antisymm ?_ hov
            rw [htot]
            refine overallOf_le_100 hn ?_
            calc (advance (ticksUpTo sched k r0).progress (sched k)).sum
                ≤ 100 * (advance (ticksUpTo sched k r0).progress (sched k)).length :=
                  sum_le_of_all_le hnext_le
              _ = 100 * sel.length := by rw [hnext_len]
          · show (ticksUpTo sched k r0).outcomes ++
                [{ success := true
                   processedCount := (ticksUpTo sched k r0).total
                   totalCount := (ticksUpTo sched k r0).total
                   archiveSizeBytes := (ticksUpTo sched k r0).archiveSize }] = [res]
            rw [hout, htot, harch]
            rfl
        · rw [if_neg hov]
          exact ⟨htot, harch, hnext_len, hnext_le, Or.inl ⟨hrun, hout, hnext_lb⟩⟩
      · -- already completed: the interval was cleared, nothing fires
        rw [hstep, tick_not_running hstop]
        exact ⟨htot, harch, hplen, hple, Or.inr ⟨hstop, hbp, hout⟩⟩
  -- after thirteen ticks the run has completed
  have hfinal : (ticksUpTo sched 13 r0).running = false ∧
      (ticksUpTo sched 13 r0).batchProgress = 100 ∧
      (ticksUpTo sched 13 r0).outcomes = [res] := by
    obtain ⟨htot, harch, hplen, hple, hrest⟩ := inv 12
    have hstep : ticksUpTo sched 13 r0 = tick (sched 12) (ticksUpTo sched 12 r0) := rfl
    rcases hrest with ⟨hrun, hout, hlb⟩ | ⟨hstop, hbp, hout⟩
    · obtain ⟨hil, hib⟩ := hv 12
      have hnext_le : ∀ c ∈ advance (ticksUpTo sched 12 r0).progress (sched 12), c ≤ 100 :=
        advance_all_le hple
      have hnext_lb : ∀ c ∈ advance (ticksUpTo sched 12 r0).progress (sched 12), 100 ≤ c := by
        intro c hc
        have h1 := advance_all_lb hlb (fun i hi => (hib i hi).1) c hc
        omega
      have hnext_len : (advance (ticksUpTo sched 12 r0).progress (sched 12)).length =
          sel.length := by
        rw [advance_length (by rw [hil, hplen]), hplen]
      have hsum : (advance (ticksUpTo sched 12 r0).progress (sched 12)).sum =
          100 * sel.length := by
        refine le_antisymm ?_ ?_
        · calc (advance (ticksUpTo sched 12 r0).progress (sched 12)).sum
              ≤ 100 * (advance (ticksUpTo sched 12 r0).progress (sched 12)).length :=
                sum_le_of_all_le hnext_le
            _ = 100 * sel.length := by rw [hnext_len]
        · calc (100 : ℕ) * sel.length = 100 *
                (advance (ticksUpTo sched 12 r0).progress (sched 12)).length := by
                rw [hnext_len]
            _ ≤ _ := sum_ge_of_all_ge hnext_lb
      have hov : overallOf (advance (ticksUpTo sched 12 r0).progress (sched 12)).sum
          (ticksUpTo sched 12 r0).total = 100 := by
        rw [hsum, htot]
        exact overallOf_eq_100 hn
      rw [hstep]
      unfold tick
      rw [if_pos hrun, if_pos (by rw [hov] : (100 : ℤ) ≤
        overallOf (advance (ticksUpTo sched 12 r0).progress (sched 12)).sum
          (ticksUpTo sched 12 r0).total)]
      refine ⟨rfl, hov, ?_⟩
      show (ticksUpTo sched 12 r0).outcomes ++
          [{ success := true
             processedCount := (ticksUpTo sched 12 r0).total
             totalCount := (ticksUpTo sched 12 r0).total
             archiveSizeBytes := (ticksUpTo sched 12 r0).archiveSize }] = [res]
      rw [hout, htot, harch]
      rfl
    · rw [hstep, tick_not_running hstop]
      exact ⟨hstop, hbp, hout⟩
  refine ⟨hfinal.1, hfinal.2.1, hfinal.2.2, ?_⟩
  intro m hm
  induction m, hm using Nat.le_induction with
  | base => rfl
  | succ m hm ihm =>
    have hstep : ticksUpTo sched (m + 1) r0 = tick (sched m) (ticksUpTo sched m r0) := rfl
    rw [hstep, ihm, tick_not_running hfinal.1]

/-- C3 witness. -/
theorem c3_batch_completion_witness :
    ∃ r0 : BatchRun, startExportFn [itemA] 0 = some r0 ∧
      r0.progress = [itemA].map (fun _ => 0) ∧ r0.batchProgress = 0 ∧
      (ticksUpTo (fun _ => [10]) 13 r0).running = false ∧
      (ticksUpTo (fun _ => [10]) 13 r0).batchProgress = 100 ∧
      (ticksUpTo (fun _ => [10]) 13 r0).outcomes =
        [{ success := true, processedCount := [itemA].length, totalCount := [itemA].length,
           archiveSizeBytes := 0 }] ∧
      (∀ m, 13 ≤ m → ticksUpTo (fun _ => [10]) m r0 = ticksUpTo (fun _ => [10]) 13 r0) :=
  c3_batch_completion [itemA] (by decide) 0 (fun _ => [10])
    (fun _ => show ValidIncs [itemA].length [10] from ⟨rfl, by decide⟩)

/-! ## Claim C2 -/

/-- On an empty selection the per-asset formats contribute nothing; the
total consists of the sprite overhead and the font base alone. -/
theorem estimates_total_empty (f : Formats) :
    (estimates [] f).2 =
      (if f.sprite.enabled = true then 5000 else 0) +
        (if f.font.enabled = true then 30000 else 0) := by
  unfold estimates svgBytesOf pngBytesOf icoBytesOf spriteBytesOf fontBytesOf componentsBytesOf
  cases hsv : f.svg.enabled <;> cases hpe : f.png.enabled <;> cases hie : f.ico.enabled <;>
    cases hsp : f.sprite.enabled <;> cases hfe : f.font.enabled <;>
      cases hce : f.components.enabled <;>
        simp [jsRoundQ] <;> norm_num

/-- On an empty selection the warning reduces to the PNG size test. -/
theorem mobileWarning_empty (p : ProfileKey) (f : Formats) :
    mobileWarning p f (estimates [] f).2 =
      (decide (p = ProfileKey.mobile) && f.png.enabled &&
        f.png.sizes.any (fun s => decide (128 ≤ s))) := by
  rw [estimates_total_empty f]
  unfold mobileWarning
  have hsmall : decide ((500000 : ℤ) <
      (if f.sprite.enabled = true then 5000 else 0) +
        (if f.font.enabled = true then 30000 else 0)) = false := by
    split_ifs <;> rfl
  rw [hsmall]
  simp [Bool.and_assoc]

/-- C2 counterexample: with an empty selection, a config with sprite and
font enabled yields totalBytes 35000, not 0, and with the mobile profile
and a configured 128 px PNG tier the warning predicate is true, not false. -/
theorem c2_counterexample :
    (estimates [] cfgC2).2 = 35000 ∧
    mobileWarning .mobile cfgC2 (estimates [] cfgC2).2 = true := by
  constructor
  · rw [estimates_total_empty cfgC2]
    rfl
  · rw [mobileWarning_empty .mobile cfgC2]
    rfl

/-- C2 amended: on an empty selection each enabled per-asset format (svg,
png, ico, components) is assigned zero bytes, the total is the sprite
overhead of 5000 plus the font base of 30000 when those collection-level
formats are enabled (hence 0 when both are disabled), and the mobile
warning holds exactly on the mobile profile with png enabled and a
configured size of at least 128. -/
theorem c2_empty_selection (f : Formats) (p : ProfileKey) :
    (f.svg.enabled = true → ("SVG", (0 : ℤ)) ∈ (estimates [] f).1) ∧
    (f.png.enabled = true →
      ("PNG ×" ++ toString f.png.sizes.length, (0 : ℤ)) ∈ (estimates [] f).1) ∧
    (f.ico.enabled = true → ("ICO", (0 : ℤ)) ∈ (estimates [] f).1) ∧
    (f.components.enabled = true →
      ("Components ×" ++ toString f.components.targets.length, (0 : ℤ))
        ∈ (estimates [] f).1) ∧
    ((estimates [] f).2 =
      (if f.sprite.enabled = true then 5000 else 0) +
        (if f.font.enabled = true then 30000 else 0)) ∧
    (mobileWarning p f (estimates [] f).2 =
      (decide (p = ProfileKey.mobile) && f.png.enabled &&
        f.png.sizes.any (fun s => decide (128 ≤ s)))) := by
  refine ⟨?_, ?_, ?_, ?_, estimates_total_empty f, mobileWarning_empty p f⟩
  · intro h
    unfold estimates svgBytesOf
    simp [h]
  · intro h
    unfold estimates pngBytesOf
    simp [h]
  · intro h
    unfold estimates icoBytesOf
    simp [h]
  · intro h
    unfold estimates componentsBytesOf
    simp [h]

/-- C2 witness. -/
theorem c2_empty_selection_witness :
    ("SVG", (0 : ℤ)) ∈ (estimates [] cfgAll).1 ∧
    ("PNG ×" ++ toString cfgAll.png.sizes.length, (0 : ℤ)) ∈ (estimates [] cfgAll).1 ∧
    ("ICO", (0 : ℤ)) ∈ (estimates [] cfgAll).1 ∧
    ("Components ×" ++ toString cfgAll.components.targets.length, (0 : ℤ))
      ∈ (estimates [] cfgAll).1 ∧
    ((estimates [] cfgAll).2 =
      (if cfgAll.sprite.enabled = true then 5000 else 0) +
        (if cfgAll.font.enabled = true then 30000 else 0)) ∧
    (mobileWarning .mobile cfgAll (estimates [] cfgAll).2 =
      (decide (ProfileKey.mobile = ProfileKey.mobile) && cfgAll.png.enabled &&
        cfgAll.png.sizes.any (fun s => decide (128 ≤ s)))) :=
  ⟨(c2_empty_selection cfgAll .mobile).1 rfl,
    (c2_empty_selection cfgAll .mobile).2.1 rfl,
    (c2_empty_selection cfgAll .mobile).2.2.1 rfl,
    (c2_empty_selection cfgAll .mobile).2.2.2.1 rfl,
    (c2_empty_selection cfgAll .mobile).2.2.2.2.1,
    (c2_empty_selection cfgAll .mobile).2.2.2.2.2⟩

/-- C8 counterexample: with the mobile profile, png disabled but a 128 px
size configured and a small total, the code raises no warning while the
claim (which ignores which formats are enabled) demands one. -/
theorem c8_counterexample :
    mobileWarning .mobile cfgC8 (estimates [itemA] cfgC8).2 = false ∧
    specMobileWarnC8 .mobile cfgC8 (estimates [itemA] cfgC8).2 = true := by
  have htot : (estimates [itemA] cfgC8).2 = 880 := by
    unfold estimates svgBytesOf itemA cfgC8 estimatePerSvg jsRoundQ
    norm_num
  rw [htot]
  constructor
  · rfl
  · rfl

/-- C8 amended: the bundle warning is raised exactly when the profile is
mobile and either png is enabled with a configured size of at least 128,
or the estimated total exceeds 500000 bytes. -/
theorem c8_warning_iff (p : ProfileKey) (f : Formats) (total : ℤ) :
    mobileWarning p f total = true ↔
      (p = ProfileKey.mobile ∧
        ((f.png.enabled = true ∧ ∃ s ∈ f.png.sizes, 128 ≤ s) ∨ 500000 < total)) := by
  unfold mobileWarning
  simp [List.any_eq_true, decide_eq_true_eq, and_assoc]

/-! ## Claim C9 -/

/-- C9: with components enabled, the contribution is the framework count
times the summed per-asset wrapper estimates; with zero targets it
contributes exactly 0 bytes to the total — the per-asset 220 byte floor is
not applied — so the total equals that of the same configuration with
components disabled. -/
theorem c9_components_contribution (sel : List ExpItem) (f : Formats)
    (hc : f.components.enabled = true) :
    ("Components ×" ++ toString f.components.targets.length,
      (f.components.targets.length : ℤ) *
        (sel.map (fun i => estimateComponent i.bytes)).sum) ∈ (estimates sel f).1 ∧
    (f.components.targets = [] →
      componentsBytesOf sel f = 0 ∧
      (estimates sel f).2 =
        (estimates sel { f with components := { f.components with enabled := false } }).2) := by
  constructor
  · unfold estimates componentsBytesOf
    simp [hc]
  · intro ht
    have hzero : componentsBytesOf sel f = 0 := by
      unfold componentsBytesOf
      rw [ht]
      simp
    refine ⟨hzero, ?_⟩
    unfold estimates
    simp only [hc, if_true]
    simp [hzero, svgBytesOf, pngBytesOf]

/-- C9 witness. -/
theorem c9_components_contribution_witness :
    ("Components ×" ++ toString cfgCompsNoTargets.components.targets.length,
      (cfgCompsNoTargets.components.targets.length : ℤ) *
        ([itemA].map (fun i => estimateComponent i.bytes)).sum)
      ∈ (estimates [itemA] cfgCompsNoTargets).1 ∧
    componentsBytesOf [itemA] cfgCompsNoTargets = 0 ∧
    (estimates [itemA] cfgCompsNoTargets).2 =
      (estimates [itemA]
        { cfgCompsNoTargets with
          components := { cfgCompsNoTargets.components with enabled := false } }).2 :=
  ⟨(c9_components_contribution [itemA] cfgCompsNoTargets rfl).1,
    ((c9_components_contribution [itemA] cfgCompsNoTargets rfl).2 rfl).1,
    ((c9_components_contribution [itemA] cfgCompsNoTargets rfl).2 rfl).2⟩
